import Mathlib

/-!
# Verification of the astrocut cube-cutout pipeline (`astrocut/cube_cut.py`)

Shallow embedding of the cutout pipeline: numpy arrays become shape-carrying
structures whose cells are `Option ℚ` (`none` models the floating-point
not-a-number sentinel used as the fill value), integer pixel bounds are `ℤ`,
and Python-level failures (negative array dimensions, index errors, failed
integer coercions) are modelled by `Option`-valued functions returning `none`.
-/

set_option autoImplicit false

namespace Astrocut

/-- A 4-dimensional numeric array (the transposed cube: axes x, y, time, plane).
Cells are `Option ℚ`: `none` models the not-a-number sentinel. The `data`
function is total; only indices below the recorded shape are meaningful. -/
structure Arr4 where
  s0 : Nat
  s1 : Nat
  s2 : Nat
  s3 : Nat
  data : Nat → Nat → Nat → Nat → Option ℚ

/-- A 3-dimensional numeric array (a cutout: axes time, x, y). -/
structure Arr3 where
  s0 : Nat
  s1 : Nat
  s2 : Nat
  data : Nat → Nat → Nat → Option ℚ

/-- A 2-dimensional numeric array (the aperture mask). -/
structure Arr2 where
  s0 : Nat
  s1 : Nat
  data : Nat → Nat → ℚ

/-- Normalisation of one endpoint of a Python slice `a[i:j]` over an axis of
length `n`: negative endpoints count from the end (clamped at 0), positive
ones are clamped at `n`. -/
def pySliceIdx (i : ℤ) (n : Nat) : Nat :=
  if i < 0 then (i + n).toNat else min i.toNat n

/-- `a[x0:x1, y0:y1, :, :]` — numpy basic slicing of the first two axes. -/
def slice01 (a : Arr4) (x0 x1 y0 y1 : ℤ) : Arr4 :=
  { s0 := pySliceIdx x1 a.s0 - pySliceIdx x0 a.s0
    s1 := pySliceIdx y1 a.s1 - pySliceIdx y0 a.s1
    s2 := a.s2
    s3 := a.s3
    data := fun i j k l => a.data (pySliceIdx x0 a.s0 + i) (pySliceIdx y0 a.s1 + j) k l }

/-- `a[:,:,:,p].transpose((2,0,1))` — select plane `p` of the last axis and
move the time axis to the front. -/
def planeT (a : Arr4) (p : Nat) : Arr3 :=
  { s0 := a.s2
    s1 := a.s0
    s2 := a.s1
    data := fun k i j => a.data i j k p }

/-- `np.pad(a, padding, 'constant', constant_values=np.nan)` on a 3-D array,
with per-axis (before, after) pad widths. -/
def pad3 (a : Arr3) (p00 p01 p10 p11 p20 p21 : Nat) : Arr3 :=
  { s0 := p00 + a.s0 + p01
    s1 := p10 + a.s1 + p11
    s2 := p20 + a.s2 + p21
    data := fun k i j =>
      if p00 ≤ k ∧ k < p00 + a.s0 ∧ p10 ≤ i ∧ i < p10 + a.s1 ∧ p20 ≤ j ∧ j < p20 + a.s2
      then a.data (k - p00) (i - p10) (j - p20)
      else none }

/-- `np.pad(a, padding, 'constant', constant_values=0)` on a 2-D array. -/
def pad2 (a : Arr2) (p00 p01 p10 p11 : Nat) : Arr2 :=
  { s0 := p00 + a.s0 + p01
    s1 := p10 + a.s1 + p11
    data := fun i j =>
      if p00 ≤ i ∧ i < p00 + a.s0 ∧ p10 ≤ j ∧ j < p10 + a.s1
      then a.data (i - p00) (j - p10)
      else 0 }

/-- `np.ones((m, n))`. -/
def ones2 (m n : Nat) : Arr2 :=
  { s0 := m, s1 := n, data := fun _ _ => 1 }

/-- The 2×2 integer array of cutout limits returned by `get_cutout_limits`:
`r0 = lims[0]` and `r1 = lims[1]`, each a (lower, upper) pair. -/
structure Lims where
  r0 : ℤ × ℤ
  r1 : ℤ × ℤ
  deriving DecidableEq

/-- `if v < 0: v = 0` — the lower-bound clamp in `get_cutout`. -/
def clampLow (v : ℤ) : ℤ := if v < 0 then 0 else v

/-- The padding recorded for a clamped lower bound. -/
def padLow (v : ℤ) : ℤ := if v < 0 then -v else 0

/-- `if v > n: v = n` — the upper-bound clamp in `get_cutout`. -/
def clampHigh (v n : ℤ) : ℤ := if v > n then n else v

/-- The padding recorded for a clamped upper bound. -/
def padHigh (v n : ℤ) : ℤ := if v > n then v - n else 0

/-- Embedding of `get_cutout(cutout_lims, transposed_cube)`.

`xmin, xmax = cutout_lims[1]` and `ymin, ymax = cutout_lims[0]`; the limits are
clamped into the cube footprint while the overshoot is recorded as padding; the
cube is sliced, the two planes are separated and transposed, an all-ones
aperture is built, and any recorded padding is applied with not-a-number
(image/uncertainty) resp. zero (aperture) fill. `np.ones` raises on a negative
dimension, which we model by returning `none`. -/
def get_cutout (cutout_lims : Lims) (transposed_cube : Arr4) :
    Option (Arr3 × Arr3 × Arr2) :=
  let xmin0 := cutout_lims.r1.1
  let xmax0 := cutout_lims.r1.2
  let ymin0 := cutout_lims.r0.1
  let ymax0 := cutout_lims.r0.2
  let xmax_cube : ℤ := transposed_cube.s0
  let ymax_cube : ℤ := transposed_cube.s1
  let p10 := padLow xmin0
  let xmin := clampLow xmin0
  let p20 := padLow ymin0
  let ymin := clampLow ymin0
  let p11 := padHigh xmax0 xmax_cube
  let xmax := clampHigh xmax0 xmax_cube
  let p21 := padHigh ymax0 ymax_cube
  let ymax := clampHigh ymax0 ymax_cube
  let cutout := slice01 transposed_cube xmin xmax ymin ymax
  let img_cutout := planeT cutout 0
  let uncert_cutout := planeT cutout 1
  if xmax - xmin < 0 ∨ ymax - ymin < 0 then
    none
  else
    let aperture := ones2 (xmax - xmin).toNat (ymax - ymin).toNat
    if p10 = 0 ∧ p11 = 0 ∧ p20 = 0 ∧ p21 = 0 then
      some (img_cutout, uncert_cutout, aperture)
    else
      some (pad3 img_cutout 0 0 p10.toNat p11.toNat p20.toNat p21.toNat,
            pad3 uncert_cutout 0 0 p10.toNat p11.toNat p20.toNat p21.toNat,
            pad2 aperture p10.toNat p11.toNat p20.toNat p21.toNat)

/-- Success condition of `get_cutout`: after clamping, each axis's bounds are
still ordered (otherwise `np.ones` is handed a negative dimension). -/
def cut_ok (lims : Lims) (cube : Arr4) : Prop :=
  max lims.r1.1 0 ≤ min lims.r1.2 (cube.s0 : ℤ) ∧
  max lims.r0.1 0 ≤ min lims.r0.2 (cube.s1 : ℤ)

instance (lims : Lims) (cube : Arr4) : Decidable (cut_ok lims cube) :=
  inferInstanceAs (Decidable (_ ∧ _))

/-- The image cutout produced by `get_cutout` (a degenerate empty array when
the call fails). -/
def cut_img (lims : Lims) (cube : Arr4) : Arr3 :=
  (get_cutout lims cube).elim ⟨0, 0, 0, fun _ _ _ => none⟩ (fun r => r.1)

/-- The uncertainty cutout produced by `get_cutout`. -/
def cut_uncert (lims : Lims) (cube : Arr4) : Arr3 :=
  (get_cutout lims cube).elim ⟨0, 0, 0, fun _ _ _ => none⟩ (fun r => r.2.1)

/-- The aperture mask produced by `get_cutout`. -/
def cut_aperture (lims : Lims) (cube : Arr4) : Arr2 :=
  (get_cutout lims cube).elim ⟨0, 0, fun _ _ => 0⟩ (fun r => r.2.2)

/-! ## Pixel Mapper: `get_cutout_limits` -/

/-- One element of the `cutout_size` specification: a plain number (assumed
pixels), a pixel `Quantity`, or an angular `Quantity` (its value expressed in
the same unit as the per-axis pixel scale). -/
inductive CutSize where
  | pixels (n : ℚ)
  | pixelQuantity (v : ℚ)
  | angle (v : ℚ)
  deriving DecidableEq

/-- The half-width `dim` computed for one size element: `size/2` for plain
numbers, `size.value/2` for pixel quantities, `(size / pixel_scale)/2` for
angular quantities. -/
def CutSize.halfWidth (scale : ℚ) : CutSize → ℚ
  | .pixels n => n / 2
  | .pixelQuantity v => v / 2
  | .angle v => v / scale / 2

/-- `int(np.round(q))`: round half to even (numpy rounding), then exact
integer conversion. -/
def npRound (q : ℚ) : ℤ :=
  let f := ⌊q⌋
  if q - f < 1 / 2 then f
  else if 1 / 2 < q - f then f + 1
  else if f % 2 = 0 then f else f + 1

/-- The loop of `get_cutout_limits`: `lims` starts as `np.zeros((2,2))`; axis
indices past 1 raise (`center_pixel[axis]` / `lims[axis, _]` are out of range),
modelled by `none`. `center` is the fractional pixel location
`center_coord.to_pixel(cube_wcs)` and `scales` the per-axis
`proj_plane_pixel_scales` (both produced by the external WCS library, so they
are taken as inputs here). -/
def limitsGo (center : Fin 2 → ℚ) (scales : Fin 2 → ℚ) :
    Nat → List CutSize → Lims → Option Lims
  | _, [], acc => some acc
  | axis, s :: rest, acc =>
    if h : axis < 2 then
      let c := center ⟨axis, h⟩
      let dim := s.halfWidth (scales ⟨axis, h⟩)
      let lo := npRound (c - dim)
      let hi := npRound (c + dim)
      let acc' := if axis = 0 then { acc with r0 := (lo, hi) }
                  else { acc with r1 := (lo, hi) }
      limitsGo center scales (axis + 1) rest acc'
    else none

/-- Embedding of `get_cutout_limits(center_coord, cutout_size, cube_wcs)`,
given the projected center pixel and per-axis pixel scales. -/
def get_cutout_limits (center : Fin 2 → ℚ) (scales : Fin 2 → ℚ)
    (cutout_size : List CutSize) : Option Lims :=
  limitsGo center scales 0 cutout_size ⟨(0, 0), (0, 0)⟩

/-- Row `axis` of the limits array, `lims[axis]`. -/
def Lims.row (l : Lims) (axis : Fin 2) : ℤ × ℤ :=
  if axis.val = 0 then l.r0 else l.r1

/-- The size normalisation in `cube_cut`: `np.atleast_1d` then
`np.repeat(cutout_size, 2)` when a single element was given. -/
def cube_cut_size_norm (sizes : List CutSize) : List CutSize :=
  if sizes.length = 1 then sizes ++ sizes else sizes

/-- Whether `cube_cut` prints the oversized-size warning
("To many dimensions in cutout size, only the first two will be used"). -/
def cube_cut_size_warn (sizes : List CutSize) : Bool :=
  decide (sizes.length > 2)

/-! ## Cutout WCS Updater: `get_cutout_wcs` -/

/-- The coordinate-system value: reference pixel (`wcs.crpix`, a 2-vector),
recorded axis lengths (`_naxis`), and all remaining WCS parameters, which the
updater never touches, collected in `rest`. -/
structure Wcs where
  crpix1 : ℚ
  crpix2 : ℚ
  naxis1 : ℤ
  naxis2 : ℤ
  rest : List (String × ℚ)
  deriving DecidableEq

/-- Embedding of `get_cutout_wcs(cutout_lims, cube_wcs)` as a pure value
transformation: `crpix -= cutout_lims[:,0]` and
`_naxis = [lims[0,1]-lims[0,0], lims[1,1]-lims[1,0]]` on a deep copy. -/
def get_cutout_wcs (cutout_lims : Lims) (cube_wcs : Wcs) : Wcs :=
  { cube_wcs with
    crpix1 := cube_wcs.crpix1 - cutout_lims.r0.1
    crpix2 := cube_wcs.crpix2 - cutout_lims.r1.1
    naxis1 := cutout_lims.r0.2 - cutout_lims.r0.1
    naxis2 := cutout_lims.r1.2 - cutout_lims.r1.1 }

/-- A store of WCS objects addressed by reference, used to reason about
aliasing: `vals` maps every address to a value and `next` is the first unused
address. -/
structure WcsStore where
  vals : Nat → Wcs
  next : Nat

/-- Overwrite the object at address `k` (in-place mutation of one object). -/
def WcsStore.setAt (s : WcsStore) (k : Nat) (w : Wcs) : WcsStore :=
  { s with vals := fun m => if m = k then w else s.vals m }

/-- `deepcopy`: allocate a fresh address holding a copy of the object at
`i`, returning the new store and the new address. -/
def WcsStore.deepcopyAt (s : WcsStore) (i : Nat) : WcsStore × Nat :=
  ({ vals := fun m => if m = s.next then s.vals i else s.vals m,
     next := s.next + 1 }, s.next)

/-- Embedding of `get_cutout_wcs` at the level of object references:
deep-copy the source, then mutate the copy in place (first the `crpix`
subtraction, then the `_naxis` assignment), returning the updated store and
the address of the cutout WCS. -/
def get_cutout_wcs_st (cutout_lims : Lims) (s : WcsStore) (i : Nat) :
    WcsStore × Nat :=
  let p := s.deepcopyAt i
  let s1 := p.1
  let j := p.2
  let w1 := s1.vals j
  let s2 := s1.setAt j { w1 with
    crpix1 := w1.crpix1 - cutout_lims.r0.1
    crpix2 := w1.crpix2 - cutout_lims.r1.1 }
  let w2 := s2.vals j
  let s3 := s2.setAt j { w2 with
    naxis1 := cutout_lims.r0.2 - cutout_lims.r0.1
    naxis2 := cutout_lims.r1.2 - cutout_lims.r1.1 }
  (s3, j)

/-! ## WCS Extractor: `get_cube_wcs` -/

/-- A FITS header/table cell value: boolean, integer, string or float. -/
inductive HVal where
  | b (v : Bool)
  | i (v : ℤ)
  | s (v : String)
  | q (v : ℚ)
  deriving DecidableEq

/-- Python truthiness of a header value (used by `header.get("INHERIT", False)`
in a boolean context). -/
def HVal.truthy : HVal → Bool
  | .b v => v
  | .i v => v ≠ 0
  | .s v => v ≠ ""
  | .q v => v ≠ 0

/-- Truncation toward zero, the behaviour of Python `int()` on a float. -/
def ratTrunc (q : ℚ) : ℤ := q.num / q.den

/-- Python `int(x)` on a header/table value: booleans and integers convert
exactly, floats truncate toward zero, strings parse as a signed decimal
integer or raise (whitespace stripping is not modelled; no such values occur
in cube tables). -/
def pyInt : HVal → Option ℤ
  | .b v => some (if v then 1 else 0)
  | .i v => some v
  | .q v => some (ratTrunc v)
  | .s v => v.toInt?

/-- Python list indexing `l[i]`: negative indices count from the end,
out-of-range indices raise. -/
def pyIndex (l : List HVal) (i : ℤ) : Option HVal :=
  if 0 ≤ i then l.get? i.toNat
  else if 0 ≤ i + l.length then l.get? (i + (l.length : ℤ)).toNat
  else none

/-- Does the list start with the given pattern? -/
def startsWithL : List Char → List Char → Bool
  | [], _ => true
  | _ :: _, [] => false
  | a :: as, b :: bs => a = b && startsWithL as bs

/-- Does the list contain the pattern as a contiguous sublist? -/
def hasSubstrL (needle : List Char) : List Char → Bool
  | [] => needle.isEmpty
  | c :: t => startsWithL needle (c :: t) || hasSubstrL needle t

/-- Python `needle in hay` on strings: contiguous substring containment. -/
def hasSubstr (needle hay : String) : Bool :=
  hasSubstrL needle.data hay.data

/-- Replace the first entry bearing keyword `k` with `(k, v)`. -/
def replaceFirst (k : String) (v : HVal) :
    List (String × HVal) → List (String × HVal)
  | [] => []
  | e :: t => if e.1 = k then (k, v) :: t else e :: replaceFirst k v t

/-- FITS header assignment `header[key] = value`: replace the first entry with
that keyword, or append a new one. -/
def hset (h : List (String × HVal)) (k : String) (v : HVal) :
    List (String × HVal) :=
  if h.any (fun e => e.1 = k) then replaceFirst k v h
  else h ++ [(k, v)]

/-- Embedding of `get_cube_wcs(table_header, table_row)` up to the final
`wcs.WCS(wcs_header)` call: it returns the keyword/value list assembled into
the WCS header (the external constructor accepts any such list, including the
empty one). For each header item whose keyword contains `TTYPE`, the column
number is parsed from the keyword's tail (`int(header_key[5:]) - 1`, raising
on failure), the row is indexed at it (raising when out of range), and the
value — integer-coerced when the bound keyword contains `NAXIS` — is assigned
under the bound keyword. A raise anywhere gives `none`. -/
def get_cube_wcs (table_header : List (String × String))
    (table_row : List HVal) : Option (List (String × HVal)) :=
  table_header.foldlM
    (fun acc kv =>
      if hasSubstr "TTYPE" kv.1 then do
        let n ← (String.mk (kv.1.data.drop 5)).toInt?
        let colNum := n - 1
        let raw ← pyIndex table_row colNum
        if hasSubstr "NAXIS" kv.2 then do
          let iv ← pyInt raw
          pure (hset acc kv.2 (HVal.i iv))
        else
          pure (hset acc kv.2 raw)
      else
        pure acc)
    []

/-! ## Header inheritance: `apply_header_inherit` -/

/-- A FITS header as an ordered list of (keyword, value, comment) cards;
lookup finds the first card with the keyword. -/
abbrev Header : Type := List (String × HVal × String)

/-- `header[k]` together with its comment: the first card with keyword `k`. -/
def hLookup (h : Header) (k : String) : Option (HVal × String) :=
  (h.find? (fun e => e.1 = k)).map (fun e => e.2)

/-- `k in header`. -/
def hContains (h : Header) (k : String) : Bool :=
  h.any (fun e => e.1 = k)

/-- `header.get(k, False)` used as a boolean (Python truthiness). -/
def hGetBool (h : Header) (k : String) : Bool :=
  match hLookup h k with
  | some (v, _) => v.truthy
  | none => false

/-- Replace the first card bearing keyword `k` with `(k, v, c)`. -/
def replaceFirstCard (k : String) (v : HVal) (c : String) : Header → Header
  | [] => []
  | e :: t =>
    if e.1 = k then (k, v, c) :: t else e :: replaceFirstCard k v c t

/-- `header[k] = (v, c)`: replace the first card with keyword `k`, or append. -/
def hSetCard (h : Header) (k : String) (v : HVal) (c : String) : Header :=
  if hContains h k then replaceFirstCard k v c h
  else h ++ [(k, v, c)]

/-- The structural keywords excluded from inheritance. -/
def reserved_kwds : List String :=
  ["COMMENT", "SIMPLE", "BITPIX", "EXTEND", "NEXTEND"]

/-- One step of the inheritance loop body: for keyword `kwd` of the primary
header, copy `(primary_header[kwd], primary_header.comments[kwd])` onto the
child only when `kwd` is neither already in the child nor reserved. -/
def inheritStep (primary : Header) (h : Header) (kwd : String) : Header :=
  if hContains h kwd = false ∧ kwd ∉ reserved_kwds then
    match hLookup primary kwd with
    | some (v, c) => hSetCard h kwd v c
    | none => h
  else h

/-- `for kwd in primary_header: ...` applied to one child header that carries
a truthy `INHERIT` card. -/
def inheritInto (primary : Header) (child : Header) : Header :=
  (primary.map (fun e => e.1)).foldl (inheritStep primary) child

/-- Processing of one non-primary HDU by `apply_header_inherit`. -/
def procChild (primary : Header) (child : Header) : Header :=
  if hGetBool child "INHERIT" then inheritInto primary child else child

/-- Embedding of `apply_header_inherit(hdu_list)` on the list of HDU headers:
the primary header is `hdu_list[0]`; every later HDU whose header has a truthy
`INHERIT` card receives the primary's non-reserved keywords that it does not
already carry. -/
def apply_header_inherit : List Header → List Header
  | [] => []
  | primary :: rest => primary :: rest.map (procChild primary)

/-! ## Output file naming in `cube_cut` -/

/-- Python `s.rstrip(chars)`: remove trailing characters drawn from the given
character set (not a suffix match). -/
def pyRstrip (s : String) (chars : List Char) : String :=
  String.mk ((s.data.reverse.dropWhile (fun c => c ∈ chars)).reverse)

/-- The default output name built by `cube_cut` when no `target_pixel_file` is
supplied:
`output_path + "/" + "{}_{}_{}_{}x{}_astrocut.fits".format(flename.rstrip('.fits').rstrip("-cube"), ra, dec, dy, dx)`
where `flename` is the base name of the cube file, `raStr`/`decStr` are the
decimal renderings of `coordinates.ra.value` / `coordinates.dec.value`
(produced by Python float formatting, taken as inputs here), and
`dy = lims[0,1]-lims[0,0]`, `dx = lims[1,1]-lims[1,0]`. -/
def target_pixel_file_name (output_path flename raStr decStr : String)
    (dy dx : ℤ) : String :=
  output_path ++ "/" ++
    pyRstrip (pyRstrip flename ['.', 'f', 'i', 't', 's']) ['-', 'c', 'u', 'b', 'e'] ++
    "_" ++ raStr ++ "_" ++ decStr ++ "_" ++ toString dy ++ "x" ++ toString dx ++
    "_astrocut.fits"

/-- Remove the given suffix from the end of a string when present — proper
suffix stripping, which is what the spec's words describe. -/
def dropSuffixStr (s sfx : String) : String :=
  if startsWithL sfx.data.reverse s.data.reverse then
    String.mk (s.data.take (s.data.length - sfx.data.length))
  else s

/-- The output name as the spec's words describe it (refinement reference,
for comparison with `target_pixel_file_name`): the input base name with its
suffixes stripped, then right ascension, declination and width×height joined
by underscores, with the fixed automated-cutout suffix. -/
def spec_output_name (output_path flename raStr decStr : String)
    (dy dx : ℤ) : String :=
  output_path ++ "/" ++
    dropSuffixStr (dropSuffixStr flename ".fits") "-cube" ++
    "_" ++ raStr ++ "_" ++ decStr ++ "_" ++ toString dy ++ "x" ++ toString dx ++
    "_astrocut.fits"

/-! ## Auxiliary predicates and sample values -/

/-- The requested bounds lie fully inside the cube footprint. -/
def fullyInside (lims : Lims) (cube : Arr4) : Prop :=
  0 ≤ lims.r1.1 ∧ lims.r1.1 ≤ lims.r1.2 ∧ lims.r1.2 ≤ (cube.s0 : ℤ) ∧
  0 ≤ lims.r0.1 ∧ lims.r0.1 ≤ lims.r0.2 ∧ lims.r0.2 ≤ (cube.s1 : ℤ)

instance (lims : Lims) (cube : Arr4) : Decidable (fullyInside lims cube) :=
  inferInstanceAs (Decidable (_ ∧ _))

/-- The requested region does not intersect the cube footprint: the clamped
range is empty on at least one spatial axis. -/
def disjointReq (lims : Lims) (cube : Arr4) : Prop :=
  min lims.r1.2 (cube.s0 : ℤ) ≤ max lims.r1.1 0 ∨
  min lims.r0.2 (cube.s1 : ℤ) ≤ max lims.r0.1 0

instance (lims : Lims) (cube : Arr4) : Decidable (disjointReq lims cube) :=
  inferInstanceAs (Decidable (_ ∨ _))

/-- A concrete 4×4 cube with 2 time slices used to instantiate theorems. -/
def sampleCube : Arr4 :=
  ⟨4, 4, 2, 2, fun i j k l => some ((i * 1000 + j * 100 + k * 10 + l : ℕ) : ℚ)⟩

/-- Bounds fully inside `sampleCube`: x ∈ [0,2), y ∈ [1,3). -/
def limsInside : Lims := ⟨(1, 3), (0, 2)⟩

/-- Bounds partially outside `sampleCube`: x ∈ [-1,2), y ∈ [1,5). -/
def limsPartial : Lims := ⟨(1, 5), (-1, 2)⟩

/-- Bounds entirely outside `sampleCube` with well-formed clamping:
x ∈ [4,7). -/
def limsDisjoint : Lims := ⟨(0, 2), (4, 7)⟩

/-- Bounds entirely outside `sampleCube` on the negative side: x ∈ [-5,-1). -/
def limsNeg : Lims := ⟨(0, 2), (-5, -1)⟩

/-- A concrete WCS value used to instantiate theorems. -/
def sampleWcs : Wcs := ⟨10, 20, 100, 100, [("CDELT1", 1)]⟩

/-- A one-object store holding `sampleWcs` at address 0. -/
def sampleStore : WcsStore := ⟨fun _ => sampleWcs, 1⟩

/-! ## Helper lemmas -/

theorem clampLow_eq (v : ℤ) : clampLow v = max v 0 := by
  unfold clampLow; split <;> omega

theorem padLow_eq (v : ℤ) : padLow v = max (-v) 0 := by
  unfold padLow; split <;> omega

theorem clampHigh_eq (v n : ℤ) : clampHigh v n = min v n := by
  unfold clampHigh; split <;> omega

theorem padHigh_eq (v n : ℤ) : padHigh v n = max (v - n) 0 := by
  unfold padHigh; split <;> omega

theorem pySliceIdx_nonneg (i : ℤ) (n : Nat) (h : 0 ≤ i) :
    pySliceIdx i n = min i.toNat n := by
  unfold pySliceIdx
  rw [if_neg (by omega)]

theorem isSome_of_eq_some {lims : Lims} {cube : Arr4} {r : Arr3 × Arr3 × Arr2}
    (h : get_cutout lims cube = some r) : (get_cutout lims cube).isSome = true := by
  rw [h]; rfl

theorem cut_img_of_eq_some {lims : Lims} {cube : Arr4} {r : Arr3 × Arr3 × Arr2}
    (h : get_cutout lims cube = some r) : cut_img lims cube = r.1 := by
  rw [cut_img, h]; rfl

theorem cut_uncert_of_eq_some {lims : Lims} {cube : Arr4} {r : Arr3 × Arr3 × Arr2}
    (h : get_cutout lims cube = some r) : cut_uncert lims cube = r.2.1 := by
  rw [cut_uncert, h]; rfl

theorem cut_aperture_of_eq_some {lims : Lims} {cube : Arr4} {r : Arr3 × Arr3 × Arr2}
    (h : get_cutout lims cube = some r) : cut_aperture lims cube = r.2.2 := by
  rw [cut_aperture, h]; rfl

set_option maxHeartbeats 1000000 in
/-- The value of `get_cutout` when no clamping was needed. -/
theorem get_cutout_eq_nopad (lims : Lims) (cube : Arr4) (h : cut_ok lims cube)
    (hp : padLow lims.r1.1 = 0 ∧ padHigh lims.r1.2 (cube.s0 : ℤ) = 0 ∧
      padLow lims.r0.1 = 0 ∧ padHigh lims.r0.2 (cube.s1 : ℤ) = 0) :
    get_cutout lims cube =
      some (planeT (slice01 cube (clampLow lims.r1.1)
              (clampHigh lims.r1.2 (cube.s0 : ℤ)) (clampLow lims.r0.1)
              (clampHigh lims.r0.2 (cube.s1 : ℤ))) 0,
            planeT (slice01 cube (clampLow lims.r1.1)
              (clampHigh lims.r1.2 (cube.s0 : ℤ)) (clampLow lims.r0.1)
              (clampHigh lims.r0.2 (cube.s1 : ℤ))) 1,
            ones2 (clampHigh lims.r1.2 (cube.s0 : ℤ) - clampLow lims.r1.1).toNat
              (clampHigh lims.r0.2 (cube.s1 : ℤ) - clampLow lims.r0.1).toNat) := by
  obtain ⟨hx, hy⟩ := h
  have hne : ¬(clampHigh lims.r1.2 (cube.s0 : ℤ) - clampLow lims.r1.1 < 0 ∨
               clampHigh lims.r0.2 (cube.s1 : ℤ) - clampLow lims.r0.1 < 0) := by
    rw [clampHigh_eq, clampHigh_eq, clampLow_eq, clampLow_eq]; omega
  simp only [get_cutout]
  rw [if_neg hne, if_pos hp]

set_option maxHeartbeats 1000000 in
/-- The value of `get_cutout` when some clamping was recorded as padding. -/
theorem get_cutout_eq_pad (lims : Lims) (cube : Arr4) (h : cut_ok lims cube)
    (hp : ¬(padLow lims.r1.1 = 0 ∧ padHigh lims.r1.2 (cube.s0 : ℤ) = 0 ∧
      padLow lims.r0.1 = 0 ∧ padHigh lims.r0.2 (cube.s1 : ℤ) = 0)) :
    get_cutout lims cube =
      some (pad3 (planeT (slice01 cube (clampLow lims.r1.1)
              (clampHigh lims.r1.2 (cube.s0 : ℤ)) (clampLow lims.r0.1)
              (clampHigh lims.r0.2 (cube.s1 : ℤ))) 0) 0 0
              (padLow lims.r1.1).toNat (padHigh lims.r1.2 (cube.s0 : ℤ)).toNat
              (padLow lims.r0.1).toNat (padHigh lims.r0.2 (cube.s1 : ℤ)).toNat,
            pad3 (planeT (slice01 cube (clampLow lims.r1.1)
              (clampHigh lims.r1.2 (cube.s0 : ℤ)) (clampLow lims.r0.1)
              (clampHigh lims.r0.2 (cube.s1 : ℤ))) 1) 0 0
              (padLow lims.r1.1).toNat (padHigh lims.r1.2 (cube.s0 : ℤ)).toNat
              (padLow lims.r0.1).toNat (padHigh lims.r0.2 (cube.s1 : ℤ)).toNat,
            pad2 (ones2 (clampHigh lims.r1.2 (cube.s0 : ℤ) - clampLow lims.r1.1).toNat
              (clampHigh lims.r0.2 (cube.s1 : ℤ) - clampLow lims.r0.1).toNat)
              (padLow lims.r1.1).toNat (padHigh lims.r1.2 (cube.s0 : ℤ)).toNat
              (padLow lims.r0.1).toNat (padHigh lims.r0.2 (cube.s1 : ℤ)).toNat) := by
  obtain ⟨hx, hy⟩ := h
  have hne : ¬(clampHigh lims.r1.2 (cube.s0 : ℤ) - clampLow lims.r1.1 < 0 ∨
               clampHigh lims.r0.2 (cube.s1 : ℤ) - clampLow lims.r0.1 < 0) := by
    rw [clampHigh_eq, clampHigh_eq, clampLow_eq, clampLow_eq]; omega
  simp only [get_cutout]
  rw [if_neg hne, if_neg hp]

set_option maxHeartbeats 1000000 in
/-- `get_cutout` fails exactly when a clamped axis ends up with unordered
bounds (`np.ones` receives a negative dimension). -/
theorem get_cutout_none_of_not_ok (lims : Lims) (cube : Arr4)
    (h : ¬cut_ok lims cube) : get_cutout lims cube = none := by
  unfold cut_ok at h
  have hcond : clampHigh lims.r1.2 (cube.s0 : ℤ) - clampLow lims.r1.1 < 0 ∨
      clampHigh lims.r0.2 (cube.s1 : ℤ) - clampLow lims.r0.1 < 0 := by
    rw [clampHigh_eq, clampHigh_eq, clampLow_eq, clampLow_eq]; omega
  simp only [get_cutout]
  rw [if_pos hcond]

/-- `get_cutout` succeeds whenever the clamped bounds stay ordered. -/
theorem get_cutout_isSome_of_ok (lims : Lims) (cube : Arr4)
    (h : cut_ok lims cube) : (get_cutout lims cube).isSome = true := by
  by_cases hp : padLow lims.r1.1 = 0 ∧ padHigh lims.r1.2 (cube.s0 : ℤ) = 0 ∧
      padLow lims.r0.1 = 0 ∧ padHigh lims.r0.2 (cube.s1 : ℤ) = 0
  · exact isSome_of_eq_some (get_cutout_eq_nopad lims cube h hp)
  · exact isSome_of_eq_some (get_cutout_eq_pad lims cube h hp)



/-- `cut_img` when no clamping was needed. -/
theorem cut_img_eq_nopad (lims : Lims) (cube : Arr4) (h : cut_ok lims cube)
    (hp : padLow lims.r1.1 = 0 ∧ padHigh lims.r1.2 (cube.s0 : ℤ) = 0 ∧
      padLow lims.r0.1 = 0 ∧ padHigh lims.r0.2 (cube.s1 : ℤ) = 0) :
    cut_img lims cube = planeT (slice01 cube (clampLow lims.r1.1)
      (clampHigh lims.r1.2 (cube.s0 : ℤ)) (clampLow lims.r0.1)
      (clampHigh lims.r0.2 (cube.s1 : ℤ))) 0 :=
  cut_img_of_eq_some (get_cutout_eq_nopad lims cube h hp)

/-- `cut_img` when some clamping was recorded as padding. -/
theorem cut_img_eq_pad (lims : Lims) (cube : Arr4) (h : cut_ok lims cube)
    (hp : ¬(padLow lims.r1.1 = 0 ∧ padHigh lims.r1.2 (cube.s0 : ℤ) = 0 ∧
      padLow lims.r0.1 = 0 ∧ padHigh lims.r0.2 (cube.s1 : ℤ) = 0)) :
    cut_img lims cube = pad3 (planeT (slice01 cube (clampLow lims.r1.1)
      (clampHigh lims.r1.2 (cube.s0 : ℤ)) (clampLow lims.r0.1)
      (clampHigh lims.r0.2 (cube.s1 : ℤ))) 0) 0 0
      (padLow lims.r1.1).toNat (padHigh lims.r1.2 (cube.s0 : ℤ)).toNat
      (padLow lims.r0.1).toNat (padHigh lims.r0.2 (cube.s1 : ℤ)).toNat :=
  cut_img_of_eq_some (get_cutout_eq_pad lims cube h hp)

/-- `cut_uncert` when no clamping was needed. -/
theorem cut_uncert_eq_nopad (lims : Lims) (cube : Arr4) (h : cut_ok lims cube)
    (hp : padLow lims.r1.1 = 0 ∧ padHigh lims.r1.2 (cube.s0 : ℤ) = 0 ∧
      padLow lims.r0.1 = 0 ∧ padHigh lims.r0.2 (cube.s1 : ℤ) = 0) :
    cut_uncert lims cube = planeT (slice01 cube (clampLow lims.r1.1)
      (clampHigh lims.r1.2 (cube.s0 : ℤ)) (clampLow lims.r0.1)
      (clampHigh lims.r0.2 (cube.s1 : ℤ))) 1 :=
  cut_uncert_of_eq_some (get_cutout_eq_nopad lims cube h hp)

/-- `cut_uncert` when some clamping was recorded as padding. -/
theorem cut_uncert_eq_pad (lims : Lims) (cube : Arr4) (h : cut_ok lims cube)
    (hp : ¬(padLow lims.r1.1 = 0 ∧ padHigh lims.r1.2 (cube.s0 : ℤ) = 0 ∧
      padLow lims.r0.1 = 0 ∧ padHigh lims.r0.2 (cube.s1 : ℤ) = 0)) :
    cut_uncert lims cube = pad3 (planeT (slice01 cube (clampLow lims.r1.1)
      (clampHigh lims.r1.2 (cube.s0 : ℤ)) (clampLow lims.r0.1)
      (clampHigh lims.r0.2 (cube.s1 : ℤ))) 1) 0 0
      (padLow lims.r1.1).toNat (padHigh lims.r1.2 (cube.s0 : ℤ)).toNat
      (padLow lims.r0.1).toNat (padHigh lims.r0.2 (cube.s1 : ℤ)).toNat :=
  cut_uncert_of_eq_some (get_cutout_eq_pad lims cube h hp)

/-- `cut_aperture` when no clamping was needed. -/
theorem cut_aperture_eq_nopad (lims : Lims) (cube : Arr4) (h : cut_ok lims cube)
    (hp : padLow lims.r1.1 = 0 ∧ padHigh lims.r1.2 (cube.s0 : ℤ) = 0 ∧
      padLow lims.r0.1 = 0 ∧ padHigh lims.r0.2 (cube.s1 : ℤ) = 0) :
    cut_aperture lims cube =
      ones2 (clampHigh lims.r1.2 (cube.s0 : ℤ) - clampLow lims.r1.1).toNat
        (clampHigh lims.r0.2 (cube.s1 : ℤ) - clampLow lims.r0.1).toNat :=
  cut_aperture_of_eq_some (get_cutout_eq_nopad lims cube h hp)

/-- `cut_aperture` when some clamping was recorded as padding. -/
theorem cut_aperture_eq_pad (lims : Lims) (cube : Arr4) (h : cut_ok lims cube)
    (hp : ¬(padLow lims.r1.1 = 0 ∧ padHigh lims.r1.2 (cube.s0 : ℤ) = 0 ∧
      padLow lims.r0.1 = 0 ∧ padHigh lims.r0.2 (cube.s1 : ℤ) = 0)) :
    cut_aperture lims cube =
      pad2 (ones2 (clampHigh lims.r1.2 (cube.s0 : ℤ) - clampLow lims.r1.1).toNat
        (clampHigh lims.r0.2 (cube.s1 : ℤ) - clampLow lims.r0.1).toNat)
        (padLow lims.r1.1).toNat (padHigh lims.r1.2 (cube.s0 : ℤ)).toNat
        (padLow lims.r0.1).toNat (padHigh lims.r0.2 (cube.s1 : ℤ)).toNat :=
  cut_aperture_of_eq_some (get_cutout_eq_pad lims cube h hp)

/-- The no-padding condition forces the bounds inside the footprint. -/
theorem nopad_facts (lims : Lims) (cube : Arr4)
    (hp : padLow lims.r1.1 = 0 ∧ padHigh lims.r1.2 (cube.s0 : ℤ) = 0 ∧
      padLow lims.r0.1 = 0 ∧ padHigh lims.r0.2 (cube.s1 : ℤ) = 0) :
    0 ≤ lims.r1.1 ∧ lims.r1.2 ≤ (cube.s0 : ℤ) ∧
    0 ≤ lims.r0.1 ∧ lims.r0.2 ≤ (cube.s1 : ℤ) := by
  obtain ⟨h1, h2, h3, h4⟩ := hp
  rw [padLow_eq] at h1 h3
  rw [padHigh_eq] at h2 h4
  omega

theorem width_nopad_arith (x0 x1 : ℤ) (n : ℕ) (hx : max x0 0 ≤ min x1 (n : ℤ))
    (h0 : 0 ≤ x0) (h1 : x1 ≤ (n : ℤ)) :
    (min x1 (n : ℤ)).toNat - (max x0 0).toNat = (x1 - x0).toNat := by
  omega

theorem width_pad_arith (x0 x1 : ℤ) (n : ℕ) (hx : max x0 0 ≤ min x1 (n : ℤ)) :
    (max (-x0) 0).toNat + ((min x1 (n : ℤ)).toNat - (max x0 0).toNat) +
      (max (x1 - (n : ℤ)) 0).toNat = (x1 - x0).toNat := by
  omega

theorem widthToNat_eq (x0 x1 : ℤ) (n : ℕ) (hx : max x0 0 ≤ min x1 (n : ℤ)) :
    (min x1 (n : ℤ) - max x0 0).toNat =
      (min x1 (n : ℤ)).toNat - (max x0 0).toNat := by
  omega

/-- One-axis equivalence between the padded-array core condition and the
cube footprint condition. -/
theorem axis_core_iff (x0 x1 : ℤ) (n i : ℕ) (hx : max x0 0 ≤ min x1 (n : ℤ))
    (hi : i < (x1 - x0).toNat) :
    ((max (-x0) 0).toNat ≤ i ∧
      i < (max (-x0) 0).toNat + ((min x1 (n : ℤ)).toNat - (max x0 0).toNat)) ↔
    (0 ≤ x0 + (i : ℤ) ∧ x0 + (i : ℤ) < (n : ℤ)) := by
  omega

/-- One-axis translation of a padded-array core index back into the cube. -/
theorem axis_core_idx (x0 : ℤ) (i : ℕ) (h0 : 0 ≤ x0 + (i : ℤ)) :
    (max x0 0).toNat + (i - (max (-x0) 0).toNat) = (x0 + (i : ℤ)).toNat := by
  omega

/-- One-axis translation of an unpadded index back into the cube. -/
theorem axis_idx_nopad (x0 : ℤ) (i : ℕ) (h0 : 0 ≤ x0) :
    (max x0 0).toNat + i = (x0 + (i : ℤ)).toNat := by
  omega

set_option maxHeartbeats 1000000 in
/-- Shapes of the image cutout under a successful call: time axis length
unchanged, spatial shape from the original unclamped bounds. -/
theorem cut_img_shape (lims : Lims) (cube : Arr4) (h : cut_ok lims cube) :
    (cut_img lims cube).s0 = cube.s2 ∧
    (cut_img lims cube).s1 = (lims.r1.2 - lims.r1.1).toNat ∧
    (cut_img lims cube).s2 = (lims.r0.2 - lims.r0.1).toNat := by
  obtain ⟨hx, hy⟩ := h
  have ea : pySliceIdx (clampLow lims.r1.1) cube.s0 = (max lims.r1.1 0).toNat := by
    rw [clampLow_eq, pySliceIdx_nonneg _ _ (by omega)]; omega
  have eb : pySliceIdx (clampHigh lims.r1.2 (cube.s0 : ℤ)) cube.s0 =
      (min lims.r1.2 (cube.s0 : ℤ)).toNat := by
    rw [clampHigh_eq, pySliceIdx_nonneg _ _ (by omega)]; omega
  have ec : pySliceIdx (clampLow lims.r0.1) cube.s1 = (max lims.r0.1 0).toNat := by
    rw [clampLow_eq, pySliceIdx_nonneg _ _ (by omega)]; omega
  have ed : pySliceIdx (clampHigh lims.r0.2 (cube.s1 : ℤ)) cube.s1 =
      (min lims.r0.2 (cube.s1 : ℤ)).toNat := by
    rw [clampHigh_eq, pySliceIdx_nonneg _ _ (by omega)]; omega
  by_cases hp : padLow lims.r1.1 = 0 ∧ padHigh lims.r1.2 (cube.s0 : ℤ) = 0 ∧
      padLow lims.r0.1 = 0 ∧ padHigh lims.r0.2 (cube.s1 : ℤ) = 0
  · obtain ⟨h1, h2, h3, h4⟩ := nopad_facts lims cube hp
    rw [cut_img_eq_nopad lims cube ⟨hx, hy⟩ hp]
    refine ⟨rfl, ?_, ?_⟩
    · simp only [planeT, slice01]; rw [ea, eb]
      exact width_nopad_arith lims.r1.1 lims.r1.2 cube.s0 hx h1 h2
    · simp only [planeT, slice01]; rw [ec, ed]
      exact width_nopad_arith lims.r0.1 lims.r0.2 cube.s1 hy h3 h4
  · rw [cut_img_eq_pad lims cube ⟨hx, hy⟩ hp]
    refine ⟨by simp only [pad3, planeT, slice01]; omega, ?_, ?_⟩
    · simp only [pad3, planeT, slice01]; rw [ea, eb]
      rw [padLow_eq lims.r1.1, padHigh_eq lims.r1.2 (cube.s0 : ℤ)]
      exact width_pad_arith lims.r1.1 lims.r1.2 cube.s0 hx
    · simp only [pad3, planeT, slice01]; rw [ec, ed]
      rw [padLow_eq lims.r0.1, padHigh_eq lims.r0.2 (cube.s1 : ℤ)]
      exact width_pad_arith lims.r0.1 lims.r0.2 cube.s1 hy

set_option maxHeartbeats 1000000 in
/-- Shapes of the uncertainty cutout under a successful call. -/
theorem cut_uncert_shape (lims : Lims) (cube : Arr4) (h : cut_ok lims cube) :
    (cut_uncert lims cube).s0 = cube.s2 ∧
    (cut_uncert lims cube).s1 = (lims.r1.2 - lims.r1.1).toNat ∧
    (cut_uncert lims cube).s2 = (lims.r0.2 - lims.r0.1).toNat := by
  obtain ⟨hx, hy⟩ := h
  have ea : pySliceIdx (clampLow lims.r1.1) cube.s0 = (max lims.r1.1 0).toNat := by
    rw [clampLow_eq, pySliceIdx_nonneg _ _ (by omega)]; omega
  have eb : pySliceIdx (clampHigh lims.r1.2 (cube.s0 : ℤ)) cube.s0 =
      (min lims.r1.2 (cube.s0 : ℤ)).toNat := by
    rw [clampHigh_eq, pySliceIdx_nonneg _ _ (by omega)]; omega
  have ec : pySliceIdx (clampLow lims.r0.1) cube.s1 = (max lims.r0.1 0).toNat := by
    rw [clampLow_eq, pySliceIdx_nonneg _ _ (by omega)]; omega
  have ed : pySliceIdx (clampHigh lims.r0.2 (cube.s1 : ℤ)) cube.s1 =
      (min lims.r0.2 (cube.s1 : ℤ)).toNat := by
    rw [clampHigh_eq, pySliceIdx_nonneg _ _ (by omega)]; omega
  by_cases hp : padLow lims.r1.1 = 0 ∧ padHigh lims.r1.2 (cube.s0 : ℤ) = 0 ∧
      padLow lims.r0.1 = 0 ∧ padHigh lims.r0.2 (cube.s1 : ℤ) = 0
  · obtain ⟨h1, h2, h3, h4⟩ := nopad_facts lims cube hp
    rw [cut_uncert_eq_nopad lims cube ⟨hx, hy⟩ hp]
    refine ⟨rfl, ?_, ?_⟩
    · simp only [planeT, slice01]; rw [ea, eb]
      exact width_nopad_arith lims.r1.1 lims.r1.2 cube.s0 hx h1 h2
    · simp only [planeT, slice01]; rw [ec, ed]
      exact width_nopad_arith lims.r0.1 lims.r0.2 cube.s1 hy h3 h4
  · rw [cut_uncert_eq_pad lims cube ⟨hx, hy⟩ hp]
    refine ⟨by simp only [pad3, planeT, slice01]; omega, ?_, ?_⟩
    · simp only [pad3, planeT, slice01]; rw [ea, eb]
      rw [padLow_eq lims.r1.1, padHigh_eq lims.r1.2 (cube.s0 : ℤ)]
      exact width_pad_arith lims.r1.1 lims.r1.2 cube.s0 hx
    · simp only [pad3, planeT, slice01]; rw [ec, ed]
      rw [padLow_eq lims.r0.1, padHigh_eq lims.r0.2 (cube.s1 : ℤ)]
      exact width_pad_arith lims.r0.1 lims.r0.2 cube.s1 hy

set_option maxHeartbeats 1000000 in
/-- Shape of the aperture mask under a successful call. -/
theorem cut_aperture_shape (lims : Lims) (cube : Arr4) (h : cut_ok lims cube) :
    (cut_aperture lims cube).s0 = (lims.r1.2 - lims.r1.1).toNat ∧
    (cut_aperture lims cube).s1 = (lims.r0.2 - lims.r0.1).toNat := by
  obtain ⟨hx, hy⟩ := h
  by_cases hp : padLow lims.r1.1 = 0 ∧ padHigh lims.r1.2 (cube.s0 : ℤ) = 0 ∧
      padLow lims.r0.1 = 0 ∧ padHigh lims.r0.2 (cube.s1 : ℤ) = 0
  · obtain ⟨h1, h2, h3, h4⟩ := nopad_facts lims cube hp
    rw [cut_aperture_eq_nopad lims cube ⟨hx, hy⟩ hp]
    refine ⟨?_, ?_⟩
    · simp only [ones2]
      rw [clampHigh_eq lims.r1.2 (cube.s0 : ℤ), clampLow_eq lims.r1.1]
      omega
    · simp only [ones2]
      rw [clampHigh_eq lims.r0.2 (cube.s1 : ℤ), clampLow_eq lims.r0.1]
      omega
  · rw [cut_aperture_eq_pad lims cube ⟨hx, hy⟩ hp]
    refine ⟨?_, ?_⟩
    · simp only [pad2, ones2]
      rw [clampHigh_eq lims.r1.2 (cube.s0 : ℤ), clampLow_eq lims.r1.1,
        padLow_eq lims.r1.1, padHigh_eq lims.r1.2 (cube.s0 : ℤ),
        widthToNat_eq lims.r1.1 lims.r1.2 cube.s0 hx]
      exact width_pad_arith lims.r1.1 lims.r1.2 cube.s0 hx
    · simp only [pad2, ones2]
      rw [clampHigh_eq lims.r0.2 (cube.s1 : ℤ), clampLow_eq lims.r0.1,
        padLow_eq lims.r0.1, padHigh_eq lims.r0.2 (cube.s1 : ℤ),
        widthToNat_eq lims.r0.1 lims.r0.2 cube.s1 hy]
      exact width_pad_arith lims.r0.1 lims.r0.2 cube.s1 hy

set_option maxHeartbeats 1000000 in
/-- Cell values of the image cutout under a successful call: cells whose
original coordinate lies in the cube footprint copy plane 0 of the cube, all
others are the not-a-number fill. -/
theorem cut_img_data (lims : Lims) (cube : Arr4) (h : cut_ok lims cube)
    (k i j : ℕ) (hk : k < cube.s2) (hi : i < (lims.r1.2 - lims.r1.1).toNat)
    (hj : j < (lims.r0.2 - lims.r0.1).toNat) :
    (cut_img lims cube).data k i j =
      (if 0 ≤ lims.r1.1 + (i : ℤ) ∧ lims.r1.1 + (i : ℤ) < (cube.s0 : ℤ) ∧
          0 ≤ lims.r0.1 + (j : ℤ) ∧ lims.r0.1 + (j : ℤ) < (cube.s1 : ℤ)
       then cube.data (lims.r1.1 + (i : ℤ)).toNat (lims.r0.1 + (j : ℤ)).toNat k 0
       else none) := by
  obtain ⟨hx, hy⟩ := h
  have ea : pySliceIdx (clampLow lims.r1.1) cube.s0 = (max lims.r1.1 0).toNat := by
    rw [clampLow_eq, pySliceIdx_nonneg _ _ (by omega)]; omega
  have eb : pySliceIdx (clampHigh lims.r1.2 (cube.s0 : ℤ)) cube.s0 =
      (min lims.r1.2 (cube.s0 : ℤ)).toNat := by
    rw [clampHigh_eq, pySliceIdx_nonneg _ _ (by omega)]; omega
  have ec : pySliceIdx (clampLow lims.r0.1) cube.s1 = (max lims.r0.1 0).toNat := by
    rw [clampLow_eq, pySliceIdx_nonneg _ _ (by omega)]; omega
  have ed : pySliceIdx (clampHigh lims.r0.2 (cube.s1 : ℤ)) cube.s1 =
      (min lims.r0.2 (cube.s1 : ℤ)).toNat := by
    rw [clampHigh_eq, pySliceIdx_nonneg _ _ (by omega)]; omega
  by_cases hp : padLow lims.r1.1 = 0 ∧ padHigh lims.r1.2 (cube.s0 : ℤ) = 0 ∧
      padLow lims.r0.1 = 0 ∧ padHigh lims.r0.2 (cube.s1 : ℤ) = 0
  · obtain ⟨h1, h2, h3, h4⟩ := nopad_facts lims cube hp
    rw [cut_img_eq_nopad lims cube ⟨hx, hy⟩ hp]
    simp only [planeT, slice01]
    rw [ea, ec]
    have hc1 : 0 ≤ lims.r1.1 + (i : ℤ) := by omega
    have hc2 : lims.r1.1 + (i : ℤ) < (cube.s0 : ℤ) := by omega
    have hc3 : 0 ≤ lims.r0.1 + (j : ℤ) := by omega
    have hc4 : lims.r0.1 + (j : ℤ) < (cube.s1 : ℤ) := by omega
    rw [if_pos ⟨hc1, hc2, hc3, hc4⟩, axis_idx_nopad lims.r1.1 i h1,
      axis_idx_nopad lims.r0.1 j h3]
  · rw [cut_img_eq_pad lims cube ⟨hx, hy⟩ hp]
    simp only [pad3, planeT, slice01]
    rw [ea, eb, ec, ed, padLow_eq lims.r1.1, padLow_eq lims.r0.1]
    have hxiff := axis_core_iff lims.r1.1 lims.r1.2 cube.s0 i hx hi
    have hyiff := axis_core_iff lims.r0.1 lims.r0.2 cube.s1 j hy hj
    by_cases hc : 0 ≤ lims.r1.1 + (i : ℤ) ∧ lims.r1.1 + (i : ℤ) < (cube.s0 : ℤ) ∧
        0 ≤ lims.r0.1 + (j : ℤ) ∧ lims.r0.1 + (j : ℤ) < (cube.s1 : ℤ)
    · obtain ⟨hc1, hc2, hc3, hc4⟩ := hc
      obtain ⟨ha1, ha2⟩ := hxiff.mpr ⟨hc1, hc2⟩
      obtain ⟨hb1, hb2⟩ := hyiff.mpr ⟨hc3, hc4⟩
      rw [if_pos ⟨Nat.zero_le k, by omega, ha1, ha2, hb1, hb2⟩,
        if_pos ⟨hc1, hc2, hc3, hc4⟩,
        axis_core_idx lims.r1.1 i hc1, axis_core_idx lims.r0.1 j hc3,
        Nat.sub_zero]
    · have hA : ¬(0 ≤ k ∧ k < 0 + cube.s2 ∧
          (max (-lims.r1.1) 0).toNat ≤ i ∧
          i < (max (-lims.r1.1) 0).toNat +
            ((min lims.r1.2 (cube.s0 : ℤ)).toNat - (max lims.r1.1 0).toNat) ∧
          (max (-lims.r0.1) 0).toNat ≤ j ∧
          j < (max (-lims.r0.1) 0).toNat +
            ((min lims.r0.2 (cube.s1 : ℤ)).toNat - (max lims.r0.1 0).toNat)) := by
        intro hA
        obtain ⟨-, -, ha1, ha2, hb1, hb2⟩ := hA
        obtain ⟨c1, c2⟩ := hxiff.mp ⟨ha1, ha2⟩
        obtain ⟨c3, c4⟩ := hyiff.mp ⟨hb1, hb2⟩
        exact hc ⟨c1, c2, c3, c4⟩
      rw [if_neg hA, if_neg hc]

set_option maxHeartbeats 1000000 in
/-- Cell values of the uncertainty cutout under a successful call: plane 1 of
the cube inside the footprint, not-a-number fill outside. -/
theorem cut_uncert_data (lims : Lims) (cube : Arr4) (h : cut_ok lims cube)
    (k i j : ℕ) (hk : k < cube.s2) (hi : i < (lims.r1.2 - lims.r1.1).toNat)
    (hj : j < (lims.r0.2 - lims.r0.1).toNat) :
    (cut_uncert lims cube).data k i j =
      (if 0 ≤ lims.r1.1 + (i : ℤ) ∧ lims.r1.1 + (i : ℤ) < (cube.s0 : ℤ) ∧
          0 ≤ lims.r0.1 + (j : ℤ) ∧ lims.r0.1 + (j : ℤ) < (cube.s1 : ℤ)
       then cube.data (lims.r1.1 + (i : ℤ)).toNat (lims.r0.1 + (j : ℤ)).toNat k 1
       else none) := by
  obtain ⟨hx, hy⟩ := h
  have ea : pySliceIdx (clampLow lims.r1.1) cube.s0 = (max lims.r1.1 0).toNat := by
    rw [clampLow_eq, pySliceIdx_nonneg _ _ (by omega)]; omega
  have eb : pySliceIdx (clampHigh lims.r1.2 (cube.s0 : ℤ)) cube.s0 =
      (min lims.r1.2 (cube.s0 : ℤ)).toNat := by
    rw [clampHigh_eq, pySliceIdx_nonneg _ _ (by omega)]; omega
  have ec : pySliceIdx (clampLow lims.r0.1) cube.s1 = (max lims.r0.1 0).toNat := by
    rw [clampLow_eq, pySliceIdx_nonneg _ _ (by omega)]; omega
  have ed : pySliceIdx (clampHigh lims.r0.2 (cube.s1 : ℤ)) cube.s1 =
      (min lims.r0.2 (cube.s1 : ℤ)).toNat := by
    rw [clampHigh_eq, pySliceIdx_nonneg _ _ (by omega)]; omega
  by_cases hp : padLow lims.r1.1 = 0 ∧ padHigh lims.r1.2 (cube.s0 : ℤ) = 0 ∧
      padLow lims.r0.1 = 0 ∧ padHigh lims.r0.2 (cube.s1 : ℤ) = 0
  · obtain ⟨h1, h2, h3, h4⟩ := nopad_facts lims cube hp
    rw [cut_uncert_eq_nopad lims cube ⟨hx, hy⟩ hp]
    simp only [planeT, slice01]
    rw [ea, ec]
    have hc1 : 0 ≤ lims.r1.1 + (i : ℤ) := by omega
    have hc2 : lims.r1.1 + (i : ℤ) < (cube.s0 : ℤ) := by omega
    have hc3 : 0 ≤ lims.r0.1 + (j : ℤ) := by omega
    have hc4 : lims.r0.1 + (j : ℤ) < (cube.s1 : ℤ) := by omega
    rw [if_pos ⟨hc1, hc2, hc3, hc4⟩, axis_idx_nopad lims.r1.1 i h1,
      axis_idx_nopad lims.r0.1 j h3]
  · rw [cut_uncert_eq_pad lims cube ⟨hx, hy⟩ hp]
    simp only [pad3, planeT, slice01]
    rw [ea, eb, ec, ed, padLow_eq lims.r1.1, padLow_eq lims.r0.1]
    have hxiff := axis_core_iff lims.r1.1 lims.r1.2 cube.s0 i hx hi
    have hyiff := axis_core_iff lims.r0.1 lims.r0.2 cube.s1 j hy hj
    by_cases hc : 0 ≤ lims.r1.1 + (i : ℤ) ∧ lims.r1.1 + (i : ℤ) < (cube.s0 : ℤ) ∧
        0 ≤ lims.r0.1 + (j : ℤ) ∧ lims.r0.1 + (j : ℤ) < (cube.s1 : ℤ)
    · obtain ⟨hc1, hc2, hc3, hc4⟩ := hc
      obtain ⟨ha1, ha2⟩ := hxiff.mpr ⟨hc1, hc2⟩
      obtain ⟨hb1, hb2⟩ := hyiff.mpr ⟨hc3, hc4⟩
      rw [if_pos ⟨Nat.zero_le k, by omega, ha1, ha2, hb1, hb2⟩,
        if_pos ⟨hc1, hc2, hc3, hc4⟩,
        axis_core_idx lims.r1.1 i hc1, axis_core_idx lims.r0.1 j hc3,
        Nat.sub_zero]
    · have hA : ¬(0 ≤ k ∧ k < 0 + cube.s2 ∧
          (max (-lims.r1.1) 0).toNat ≤ i ∧
          i < (max (-lims.r1.1) 0).toNat +
            ((min lims.r1.2 (cube.s0 : ℤ)).toNat - (max lims.r1.1 0).toNat) ∧
          (max (-lims.r0.1) 0).toNat ≤ j ∧
          j < (max (-lims.r0.1) 0).toNat +
            ((min lims.r0.2 (cube.s1 : ℤ)).toNat - (max lims.r0.1 0).toNat)) := by
        intro hA
        obtain ⟨-, -, ha1, ha2, hb1, hb2⟩ := hA
        obtain ⟨c1, c2⟩ := hxiff.mp ⟨ha1, ha2⟩
        obtain ⟨c3, c4⟩ := hyiff.mp ⟨hb1, hb2⟩
        exact hc ⟨c1, c2, c3, c4⟩
      rw [if_neg hA, if_neg hc]

set_option maxHeartbeats 1000000 in
/-- Cell values of the aperture mask under a successful call: 1 inside the
cube footprint, 0 on padded cells. -/
theorem cut_aperture_data (lims : Lims) (cube : Arr4) (h : cut_ok lims cube)
    (i j : ℕ) (hi : i < (lims.r1.2 - lims.r1.1).toNat)
    (hj : j < (lims.r0.2 - lims.r0.1).toNat) :
    (cut_aperture lims cube).data i j =
      (if 0 ≤ lims.r1.1 + (i : ℤ) ∧ lims.r1.1 + (i : ℤ) < (cube.s0 : ℤ) ∧
          0 ≤ lims.r0.1 + (j : ℤ) ∧ lims.r0.1 + (j : ℤ) < (cube.s1 : ℤ)
       then 1 else 0) := by
  obtain ⟨hx, hy⟩ := h
  by_cases hp : padLow lims.r1.1 = 0 ∧ padHigh lims.r1.2 (cube.s0 : ℤ) = 0 ∧
      padLow lims.r0.1 = 0 ∧ padHigh lims.r0.2 (cube.s1 : ℤ) = 0
  · obtain ⟨h1, h2, h3, h4⟩ := nopad_facts lims cube hp
    rw [cut_aperture_eq_nopad lims cube ⟨hx, hy⟩ hp]
    simp only [ones2]
    have hc1 : 0 ≤ lims.r1.1 + (i : ℤ) := by omega
    have hc2 : lims.r1.1 + (i : ℤ) < (cube.s0 : ℤ) := by omega
    have hc3 : 0 ≤ lims.r0.1 + (j : ℤ) := by omega
    have hc4 : lims.r0.1 + (j : ℤ) < (cube.s1 : ℤ) := by omega
    rw [if_pos ⟨hc1, hc2, hc3, hc4⟩]
  · rw [cut_aperture_eq_pad lims cube ⟨hx, hy⟩ hp]
    simp only [pad2, ones2]
    rw [clampHigh_eq lims.r1.2 (cube.s0 : ℤ), clampLow_eq lims.r1.1,
      clampHigh_eq lims.r0.2 (cube.s1 : ℤ), clampLow_eq lims.r0.1,
      padLow_eq lims.r1.1, padLow_eq lims.r0.1,
      widthToNat_eq lims.r1.1 lims.r1.2 cube.s0 hx,
      widthToNat_eq lims.r0.1 lims.r0.2 cube.s1 hy]
    have hxiff := axis_core_iff lims.r1.1 lims.r1.2 cube.s0 i hx hi
    have hyiff := axis_core_iff lims.r0.1 lims.r0.2 cube.s1 j hy hj
    by_cases hc : 0 ≤ lims.r1.1 + (i : ℤ) ∧ lims.r1.1 + (i : ℤ) < (cube.s0 : ℤ) ∧
        0 ≤ lims.r0.1 + (j : ℤ) ∧ lims.r0.1 + (j : ℤ) < (cube.s1 : ℤ)
    · obtain ⟨hc1, hc2, hc3, hc4⟩ := hc
      obtain ⟨ha1, ha2⟩ := hxiff.mpr ⟨hc1, hc2⟩
      obtain ⟨hb1, hb2⟩ := hyiff.mpr ⟨hc3, hc4⟩
      rw [if_pos ⟨ha1, ha2, hb1, hb2⟩, if_pos ⟨hc1, hc2, hc3, hc4⟩]
    · have hA : ¬((max (-lims.r1.1) 0).toNat ≤ i ∧
          i < (max (-lims.r1.1) 0).toNat +
            ((min lims.r1.2 (cube.s0 : ℤ)).toNat - (max lims.r1.1 0).toNat) ∧
          (max (-lims.r0.1) 0).toNat ≤ j ∧
          j < (max (-lims.r0.1) 0).toNat +
            ((min lims.r0.2 (cube.s1 : ℤ)).toNat - (max lims.r0.1 0).toNat)) := by
        intro hA
        obtain ⟨ha1, ha2, hb1, hb2⟩ := hA
        obtain ⟨c1, c2⟩ := hxiff.mp ⟨ha1, ha2⟩
        obtain ⟨c3, c4⟩ := hyiff.mp ⟨hb1, hb2⟩
        exact hc ⟨c1, c2, c3, c4⟩
      rw [if_neg hA, if_neg hc]

/-! ## Claim theorems -/

set_option maxHeartbeats 1000000 in
/-- C1: whenever `get_cutout` produces outputs, their spatial shape equals
(row_max-row_min, col_max-col_min) computed from the original, unclamped
bounds; for bounds fully inside the cube the call succeeds with zero padding —
every cell copies the source cube — and the aperture mask is all ones. -/
theorem claim_C1_output_shape (lims : Lims) (cube : Arr4) (h : cut_ok lims cube) :
    (get_cutout lims cube).isSome = true ∧
    (cut_img lims cube).s1 = (lims.r1.2 - lims.r1.1).toNat ∧
    (cut_img lims cube).s2 = (lims.r0.2 - lims.r0.1).toNat ∧
    (cut_uncert lims cube).s1 = (lims.r1.2 - lims.r1.1).toNat ∧
    (cut_uncert lims cube).s2 = (lims.r0.2 - lims.r0.1).toNat ∧
    (cut_aperture lims cube).s0 = (lims.r1.2 - lims.r1.1).toNat ∧
    (cut_aperture lims cube).s1 = (lims.r0.2 - lims.r0.1).toNat ∧
    (fullyInside lims cube →
      (∀ i j : ℕ, i < (lims.r1.2 - lims.r1.1).toNat →
        j < (lims.r0.2 - lims.r0.1).toNat →
        (cut_aperture lims cube).data i j = 1) ∧
      (∀ k i j : ℕ, k < cube.s2 → i < (lims.r1.2 - lims.r1.1).toNat →
        j < (lims.r0.2 - lims.r0.1).toNat →
        (cut_img lims cube).data k i j =
          cube.data (lims.r1.1 + (i : ℤ)).toNat (lims.r0.1 + (j : ℤ)).toNat k 0 ∧
        (cut_uncert lims cube).data k i j =
          cube.data (lims.r1.1 + (i : ℤ)).toNat (lims.r0.1 + (j : ℤ)).toNat k 1)) := by
  refine ⟨get_cutout_isSome_of_ok lims cube h, (cut_img_shape lims cube h).2.1,
    (cut_img_shape lims cube h).2.2, (cut_uncert_shape lims cube h).2.1,
    (cut_uncert_shape lims cube h).2.2, (cut_aperture_shape lims cube h).1,
    (cut_aperture_shape lims cube h).2, ?_⟩
  intro hin
  obtain ⟨g1, g2, g3, g4, g5, g6⟩ := hin
  constructor
  · intro i j hi hj
    rw [cut_aperture_data lims cube h i j hi hj, if_pos (by omega)]
  · intro k i j hk hi hj
    constructor
    · rw [cut_img_data lims cube h k i j hk hi hj, if_pos (by omega)]
    · rw [cut_uncert_data lims cube h k i j hk hi hj, if_pos (by omega)]

/-- C1 witness: a 5-wide request fully inside the sample cube succeeds with
the requested shape, an all-ones aperture and source-cube cell values. -/
theorem claim_C1_output_shape_witness :
    (get_cutout limsInside sampleCube).isSome = true ∧
    (cut_img limsInside sampleCube).s1 = 2 ∧
    (cut_aperture limsInside sampleCube).data 1 1 = 1 ∧
    (cut_img limsInside sampleCube).data 1 1 1 = sampleCube.data 1 2 1 0 := by
  have h := claim_C1_output_shape limsInside sampleCube (by decide)
  have hrest := h.2.2.2.2.2.2.2 (by decide)
  refine ⟨h.1, h.2.1.trans (by decide), hrest.1 1 1 (by decide) (by decide), ?_⟩
  exact ((hrest.2 1 1 1 (by decide) (by decide) (by decide)).1).trans (by decide)

set_option maxHeartbeats 1000000 in
/-- C2: under a successful call, padding is applied only along the spatial
axes (the time axis keeps the cube's length); every cell whose original
coordinate falls outside the cube is the not-a-number fill in the image and
uncertainty cutouts and 0 in the aperture mask, and every in-range cell copies
the corresponding cube value (plane 0 resp. plane 1), with aperture 1. -/
theorem claim_C2_padding_fill (lims : Lims) (cube : Arr4) (h : cut_ok lims cube) :
    (cut_img lims cube).s0 = cube.s2 ∧
    (cut_uncert lims cube).s0 = cube.s2 ∧
    ∀ k i j : ℕ, k < cube.s2 → i < (lims.r1.2 - lims.r1.1).toNat →
      j < (lims.r0.2 - lims.r0.1).toNat →
      ((lims.r1.1 + (i : ℤ) < 0 ∨ (cube.s0 : ℤ) ≤ lims.r1.1 + (i : ℤ) ∨
        lims.r0.1 + (j : ℤ) < 0 ∨ (cube.s1 : ℤ) ≤ lims.r0.1 + (j : ℤ)) →
        (cut_img lims cube).data k i j = none ∧
        (cut_uncert lims cube).data k i j = none ∧
        (cut_aperture lims cube).data i j = 0) ∧
      ((0 ≤ lims.r1.1 + (i : ℤ) ∧ lims.r1.1 + (i : ℤ) < (cube.s0 : ℤ) ∧
        0 ≤ lims.r0.1 + (j : ℤ) ∧ lims.r0.1 + (j : ℤ) < (cube.s1 : ℤ)) →
        (cut_img lims cube).data k i j =
          cube.data (lims.r1.1 + (i : ℤ)).toNat (lims.r0.1 + (j : ℤ)).toNat k 0 ∧
        (cut_uncert lims cube).data k i j =
          cube.data (lims.r1.1 + (i : ℤ)).toNat (lims.r0.1 + (j : ℤ)).toNat k 1 ∧
        (cut_aperture lims cube).data i j = 1) := by
  refine ⟨(cut_img_shape lims cube h).1, (cut_uncert_shape lims cube h).1, ?_⟩
  intro k i j hk hi hj
  constructor
  · intro hout
    refine ⟨?_, ?_, ?_⟩
    · rw [cut_img_data lims cube h k i j hk hi hj, if_neg (by omega)]
    · rw [cut_uncert_data lims cube h k i j hk hi hj, if_neg (by omega)]
    · rw [cut_aperture_data lims cube h i j hi hj, if_neg (by omega)]
  · intro hc
    refine ⟨?_, ?_, ?_⟩
    · rw [cut_img_data lims cube h k i j hk hi hj, if_pos hc]
    · rw [cut_uncert_data lims cube h k i j hk hi hj, if_pos hc]
    · rw [cut_aperture_data lims cube h i j hi hj, if_pos hc]

/-- C2 witness: a request overhanging the sample cube on two sides has the
unpadded time axis, not-a-number and zero-aperture padded cells, and unchanged
in-range cells. -/
theorem claim_C2_padding_fill_witness :
    (cut_img limsPartial sampleCube).s0 = 2 ∧
    (cut_img limsPartial sampleCube).data 0 0 0 = none ∧
    (cut_uncert limsPartial sampleCube).data 0 0 0 = none ∧
    (cut_aperture limsPartial sampleCube).data 0 0 = 0 ∧
    (cut_img limsPartial sampleCube).data 0 1 0 = sampleCube.data 0 1 0 0 ∧
    (cut_aperture limsPartial sampleCube).data 1 0 = 1 := by
  have h := claim_C2_padding_fill limsPartial sampleCube (by decide)
  have hout := (h.2.2 0 0 0 (by decide) (by decide) (by decide)).1 (by decide)
  have hin := (h.2.2 0 1 0 (by decide) (by decide) (by decide)).2 (by decide)
  exact ⟨h.1.trans (by decide), hout.1, hout.2.1, hout.2.2,
    hin.1.trans (by decide), hin.2.2⟩

/-- C3 counterexample: a request entirely left of the cube (x ∈ [-5,-1)) does
not degrade gracefully — after clamping the lower bound to 0 the upper bound
is still negative, `np.ones((-1, ·))` raises, and no cutout is produced. -/
theorem claim_C3_counterexample : get_cutout limsNeg sampleCube = none := by
  rfl

set_option maxHeartbeats 1000000 in
/-- C3 (amended): a request that misses the cube degrades gracefully only when
each axis's clamped bounds stay ordered; then the call succeeds and returns an
all-fill cutout of the requested shape with an all-zero aperture mask. When
clamping leaves some axis with unordered bounds, the call fails instead. -/
theorem claim_C3_disjoint_graceful (lims : Lims) (cube : Arr4) :
    (cut_ok lims cube → disjointReq lims cube →
      (get_cutout lims cube).isSome = true ∧
      (cut_img lims cube).s0 = cube.s2 ∧
      (cut_img lims cube).s1 = (lims.r1.2 - lims.r1.1).toNat ∧
      (cut_img lims cube).s2 = (lims.r0.2 - lims.r0.1).toNat ∧
      (cut_aperture lims cube).s0 = (lims.r1.2 - lims.r1.1).toNat ∧
      (cut_aperture lims cube).s1 = (lims.r0.2 - lims.r0.1).toNat ∧
      (∀ k i j : ℕ, k < cube.s2 → i < (lims.r1.2 - lims.r1.1).toNat →
        j < (lims.r0.2 - lims.r0.1).toNat →
        (cut_img lims cube).data k i j = none ∧
        (cut_uncert lims cube).data k i j = none) ∧
      (∀ i j : ℕ, i < (lims.r1.2 - lims.r1.1).toNat →
        j < (lims.r0.2 - lims.r0.1).toNat →
        (cut_aperture lims cube).data i j = 0)) ∧
    (¬cut_ok lims cube → get_cutout lims cube = none) := by
  constructor
  · intro h hdisj
    unfold disjointReq at hdisj
    have hok := h
    obtain ⟨hx, hy⟩ := hok
    refine ⟨get_cutout_isSome_of_ok lims cube h, (cut_img_shape lims cube h).1,
      (cut_img_shape lims cube h).2.1, (cut_img_shape lims cube h).2.2,
      (cut_aperture_shape lims cube h).1, (cut_aperture_shape lims cube h).2,
      ?_, ?_⟩
    · intro k i j hk hi hj
      constructor
      · rw [cut_img_data lims cube h k i j hk hi hj, if_neg (by omega)]
      · rw [cut_uncert_data lims cube h k i j hk hi hj, if_neg (by omega)]
    · intro i j hi hj
      rw [cut_aperture_data lims cube h i j hi hj, if_neg (by omega)]
  · exact get_cutout_none_of_not_ok lims cube

/-- C3 witness: a request entirely right of the sample cube (x ∈ [4,7), cube
width 4) succeeds, keeps the requested 3-wide shape, and is all fill with an
all-zero aperture; an ill-clamped request (x ∈ [6,9) on a width-4 cube after
its upper bound clamps below its lower bound) yields no cutout. -/
theorem claim_C3_disjoint_graceful_witness :
    (get_cutout limsDisjoint sampleCube).isSome = true ∧
    (cut_img limsDisjoint sampleCube).s1 = 3 ∧
    (cut_img limsDisjoint sampleCube).data 0 0 0 = none ∧
    (cut_aperture limsDisjoint sampleCube).data 2 1 = 0 ∧
    get_cutout ⟨(1, 3), (6, 9)⟩ sampleCube = none := by
  have h := (claim_C3_disjoint_graceful limsDisjoint sampleCube).1
    (by decide) (by decide)
  exact ⟨h.1, h.2.2.1.trans (by decide),
    (h.2.2.2.2.2.2.1 0 0 0 (by decide) (by decide) (by decide)).1,
    h.2.2.2.2.2.2.2 2 1 (by decide) (by decide),
    (claim_C3_disjoint_graceful ⟨(1, 3), (6, 9)⟩ sampleCube).2 (by decide)⟩

/-- C4 (code bug): a size specification with more than two elements does
surface the warning, but the excess elements are not ignored — the limits loop
runs into `center_pixel[2]` / `lims[2, 0]` and raises an IndexError (modelled
as `none`) instead of returning bounds computed from the first two elements. -/
theorem claim_C4_oversize_size_raises :
    cube_cut_size_warn [CutSize.pixels 5, CutSize.pixels 5, CutSize.pixels 5] = true ∧
    get_cutout_limits (fun _ => (10 : ℚ)) (fun _ => (1 : ℚ))
      (cube_cut_size_norm [CutSize.pixels 5, CutSize.pixels 5, CutSize.pixels 5]) =
      none :=
  ⟨rfl, rfl⟩

/-- An `Option`-valued fold whose step leaves the accumulator unchanged on
every list element returns the initial accumulator. -/
theorem foldlM_id_of_skip {α β : Type} (f : β → α → Option β) (l : List α)
    (h : ∀ x ∈ l, ∀ acc : β, f acc x = some acc) :
    ∀ acc : β, l.foldlM f acc = some acc := by
  induction l with
  | nil => intro acc; rfl
  | cons x t ih =>
    intro acc
    rw [List.foldlM_cons, h x (List.mem_cons_self x t)]
    exact ih (fun y hy acc' => h y (List.mem_cons_of_mem x hy) acc') acc

/-- C5 counterexample: a cube table header with no `TTYPE` bindings does not
make WCS extraction fail — `get_cube_wcs` completes and hands the external
constructor an empty keyword set (astropy accepts an empty header, yielding a
degenerate WCS). -/
theorem claim_C5_counterexample :
    get_cube_wcs [("XTENSION", "BINTABLE"), ("NAXIS", "2"), ("EXTNAME", "PIXELS")]
      [HVal.q 5] = some [] ∧
    get_cube_wcs [("XTENSION", "BINTABLE"), ("NAXIS", "2"), ("EXTNAME", "PIXELS")]
      [HVal.q 5] ≠ none := by
  refine ⟨rfl, ?_⟩
  intro hnone
  exact Option.noConfusion ((rfl :
    get_cube_wcs [("XTENSION", "BINTABLE"), ("NAXIS", "2"), ("EXTNAME", "PIXELS")]
      [HVal.q 5] = some []).symm.trans hnone)

/-- C5 (amended): when the cube table header contains no keyword with a
`TTYPE` binding, `get_cube_wcs` raises no error at all: it returns the WCS
built from an empty keyword set; any failure would only arise later, outside
the extractor. -/
theorem claim_C5_no_ttype_no_error (hdr : List (String × String))
    (row : List HVal) (h : ∀ kv ∈ hdr, hasSubstr "TTYPE" kv.1 = false) :
    get_cube_wcs hdr row = some [] := by
  unfold get_cube_wcs
  refine foldlM_id_of_skip _ hdr ?_ []
  intro kv hkv acc
  rw [if_neg (by rw [h kv hkv]; exact Bool.false_ne_true)]
  rfl

/-- C5 witness: the amended statement applied to a concrete TTYPE-free
header. -/
theorem claim_C5_no_ttype_no_error_witness :
    get_cube_wcs [("XTENSION", "BINTABLE"), ("PCOUNT", "0")] [HVal.i 7] =
      some [] :=
  claim_C5_no_ttype_no_error [("XTENSION", "BINTABLE"), ("PCOUNT", "0")]
    [HVal.i 7] (by decide)

/-- `np.round` rounds to a nearest integer: the rounding error never
exceeds one half. -/
theorem npRound_nearest (q : ℚ) : |q - (npRound q : ℚ)| ≤ 1 / 2 := by
  simp only [npRound]
  have h1 : (⌊q⌋ : ℚ) ≤ q := Int.floor_le q
  have h2 : q < ⌊q⌋ + 1 := Int.lt_floor_add_one q
  split_ifs with ha hb hcq <;> rw [abs_le] <;> constructor <;> push_cast <;>
    linarith

set_option maxHeartbeats 1000000 in
/-- C6: for a two-element size specification whose element on an axis is a
pixel count `n`, `get_cutout_limits` succeeds and returns on that axis the
bounds `round(center - n/2)` and `round(center + n/2)`, each rounded
independently to a nearest integer (half-to-even), where `center` is the
projected fractional pixel location; no clamping to any cube range occurs —
the function does not even receive the cube. -/
theorem claim_C6_pixel_bounds (center scales : Fin 2 → ℚ) (s0 s1 : CutSize)
    (axis : Fin 2) (n : ℚ) (h : [s0, s1].get axis = CutSize.pixels n) :
    ∃ l : Lims, get_cutout_limits center scales [s0, s1] = some l ∧
      l.row axis = (npRound (center axis - n / 2), npRound (center axis + n / 2)) ∧
      |center axis - n / 2 - (npRound (center axis - n / 2) : ℚ)| ≤ 1 / 2 ∧
      |center axis + n / 2 - (npRound (center axis + n / 2) : ℚ)| ≤ 1 / 2 := by
  refine ⟨⟨(npRound (center 0 - s0.halfWidth (scales 0)),
            npRound (center 0 + s0.halfWidth (scales 0))),
           (npRound (center 1 - s1.halfWidth (scales 1)),
            npRound (center 1 + s1.halfWidth (scales 1)))⟩,
    rfl, ?_, npRound_nearest _, npRound_nearest _⟩
  fin_cases axis
  · simp only [List.get] at h
    subst h
    rfl
  · simp only [List.get] at h
    subst h
    rfl

/-- C6 witness: a 5-pixel request centred on integer pixel 0 on both axes
rounds half-to-even to the bounds (-2, 2). -/
theorem claim_C6_pixel_bounds_witness :
    ∃ l : Lims, get_cutout_limits (fun _ => (0 : ℚ)) (fun _ => (1 : ℚ))
        [CutSize.pixels 5, CutSize.pixels 5] = some l ∧
      l.row 0 = (npRound ((0 : ℚ) - 5 / 2), npRound ((0 : ℚ) + 5 / 2)) ∧
      |(0 : ℚ) - 5 / 2 - (npRound ((0 : ℚ) - 5 / 2) : ℚ)| ≤ 1 / 2 ∧
      |(0 : ℚ) + 5 / 2 - (npRound ((0 : ℚ) + 5 / 2) : ℚ)| ≤ 1 / 2 :=
  claim_C6_pixel_bounds (fun _ => 0) (fun _ => 1) (CutSize.pixels 5)
    (CutSize.pixels 5) 0 5 rfl

/-- C7: the cutout WCS has its reference pixel shifted by the lower bound of
each axis's original bounds, its recorded axis lengths set to the cutout's
spatial shape (upper minus lower of the original bounds), and every other WCS
parameter copied unchanged from the source. -/
theorem claim_C7_cutout_wcs (lims : Lims) (w : Wcs) :
    (get_cutout_wcs lims w).crpix1 = w.crpix1 - lims.r0.1 ∧
    (get_cutout_wcs lims w).crpix2 = w.crpix2 - lims.r1.1 ∧
    (get_cutout_wcs lims w).naxis1 = lims.r0.2 - lims.r0.1 ∧
    (get_cutout_wcs lims w).naxis2 = lims.r1.2 - lims.r1.1 ∧
    (get_cutout_wcs lims w).rest = w.rest :=
  ⟨rfl, rfl, rfl, rfl, rfl⟩

/-- C8: the cutout WCS is built on a fresh address (deep copy): the source
object is unchanged by the call, any later overwrite of the returned object
leaves the source unchanged, and the returned object holds exactly the pure
`get_cutout_wcs` of the source value. -/
theorem claim_C8_no_aliasing (lims : Lims) (s : WcsStore) (i : Nat)
    (hi : i < s.next) :
    (get_cutout_wcs_st lims s i).2 ≠ i ∧
    (get_cutout_wcs_st lims s i).1.vals i = s.vals i ∧
    (∀ w : Wcs,
      (((get_cutout_wcs_st lims s i).1.setAt (get_cutout_wcs_st lims s i).2 w).vals i)
        = s.vals i) ∧
    (get_cutout_wcs_st lims s i).1.vals (get_cutout_wcs_st lims s i).2 =
      get_cutout_wcs lims (s.vals i) := by
  have hne : i ≠ s.next := by omega
  unfold get_cutout_wcs_st WcsStore.deepcopyAt WcsStore.setAt get_cutout_wcs
  refine ⟨fun hcon => hne hcon.symm, by simp [hne], fun w => by simp [hne], by simp⟩

/-- C8 witness: the aliasing claim at a concrete one-object store. -/
theorem claim_C8_no_aliasing_witness :
    (get_cutout_wcs_st limsInside sampleStore 0).2 ≠ 0 ∧
    (get_cutout_wcs_st limsInside sampleStore 0).1.vals 0 = sampleStore.vals 0 ∧
    ((get_cutout_wcs_st limsInside sampleStore 0).1.setAt
      (get_cutout_wcs_st limsInside sampleStore 0).2 sampleWcs).vals 0 =
      sampleStore.vals 0 := by
  have h := claim_C8_no_aliasing limsInside sampleStore 0 (by decide)
  exact ⟨h.1, h.2.1, h.2.2.1 sampleWcs⟩

theorem dropWhile_append_of_forall {α : Type} (p : α → Bool) (l1 l2 : List α)
    (h : ∀ x ∈ l1, p x = true) :
    (l1 ++ l2).dropWhile p = l2.dropWhile p := by
  induction l1 with
  | nil => rfl
  | cons x t ih =>
    rw [List.cons_append, List.dropWhile_cons_of_pos (h x (List.mem_cons_self x t))]
    exact ih (fun y hy => h y (List.mem_cons_of_mem x hy))

/-- The chained `rstrip('.fits').rstrip("-cube")` recovers the base name when
the file name ends in `-cube.fits` and the character before that suffix is in
neither strip set. -/
theorem rstrip_cube_fits (b : String) (c : Char) (t : List Char)
    (hb : b.data.reverse = c :: t)
    (hc : c ∉ (['-', 'c', 'u', 'b', 'e'] : List Char)) :
    pyRstrip (pyRstrip (b ++ "-cube.fits") ['.', 'f', 'i', 't', 's'])
      ['-', 'c', 'u', 'b', 'e'] = b := by
  unfold pyRstrip
  rw [String.data_append]
  rw [show ("-cube.fits" : String).data =
    ['-', 'c', 'u', 'b', 'e', '.', 'f', 'i', 't', 's'] from rfl]
  rw [List.reverse_append]
  rw [show (['-', 'c', 'u', 'b', 'e', '.', 'f', 'i', 't', 's'] : List Char).reverse =
    ['s', 't', 'i', 'f', '.'] ++ ['e', 'b', 'u', 'c', '-'] from rfl]
  rw [List.append_assoc, dropWhile_append_of_forall _ _ _ (by decide)]
  rw [show (['e', 'b', 'u', 'c', '-'] : List Char) ++ b.data.reverse =
    'e' :: (['b', 'u', 'c', '-'] ++ b.data.reverse) from rfl]
  rw [List.dropWhile_cons_of_neg (by decide)]
  rw [show (String.mk (('e' :: (['b', 'u', 'c', '-'] ++ b.data.reverse)).reverse)).data =
    ('e' :: (['b', 'u', 'c', '-'] ++ b.data.reverse)).reverse from rfl]
  rw [List.reverse_reverse]
  rw [show ('e' :: (['b', 'u', 'c', '-'] ++ b.data.reverse) : List Char) =
    ['e', 'b', 'u', 'c', '-'] ++ b.data.reverse from rfl]
  rw [dropWhile_append_of_forall _ _ _ (by decide), hb,
    List.dropWhile_cons_of_neg (by simp [hc]), ← hb, List.reverse_reverse]

/-- C9 counterexample: Python `rstrip` removes a
character set, not a suffix, so for an input file `tess_ffis.fits` the
generated name starts from `tess_` (the trailing `ffis` is eaten by the
`'.fits'` character set) instead of the suffix-stripped base name
`tess_ffis`. -/
theorem claim_C9_counterexample :
    target_pixel_file_name "." "tess_ffis.fits" "120.5" "-30.25" 5 5 ≠
      spec_output_name "." "tess_ffis.fits" "120.5" "-30.25" 5 5 := by
  decide

/-- C9 (amended): the default output name is
`<path>/<stripped>_<ra>_<dec>_<H>x<W>_astrocut.fits` where `<stripped>` is the
input base name with trailing characters from the sets `{.fits}` and then
`{-cube}` removed; this equals plain suffix stripping exactly when the name
ends in `-cube.fits` and the preceding character is in neither set. -/
theorem claim_C9_default_name (output_path b raStr decStr : String)
    (dy dx : ℤ) (c : Char) (t : List Char) (hb : b.data.reverse = c :: t)
    (hc : c ∉ (['-', 'c', 'u', 'b', 'e'] : List Char)) :
    target_pixel_file_name output_path (b ++ "-cube.fits") raStr decStr dy dx =
      output_path ++ "/" ++ b ++ "_" ++ raStr ++ "_" ++ decStr ++ "_" ++
        toString dy ++ "x" ++ toString dx ++ "_astrocut.fits" := by
  unfold target_pixel_file_name
  rw [rstrip_cube_fits b c t hb hc]

/-- C9 witness: the amended naming statement at a concrete TESS-style cube
file name. -/
theorem claim_C9_default_name_witness :
    target_pixel_file_name "." ("tess-s0001-4-1" ++ "-cube.fits") "120.5"
        "-30.25" 5 5 =
      "." ++ "/" ++ "tess-s0001-4-1" ++ "_" ++ "120.5" ++ "_" ++ "-30.25" ++
        "_" ++ toString (5 : ℤ) ++ "x" ++ toString (5 : ℤ) ++ "_astrocut.fits" :=
  claim_C9_default_name "." "tess-s0001-4-1" "120.5" "-30.25" 5 5 '1'
    ['-', '4', '-', '1', '0', '0', '0', 's', '-', 's', 's', 'e', 't']
    (by decide) (by decide)

theorem hLookup_append (h h2 : Header) (k : String) (e : HVal × String)
    (hl : hLookup h k = some e) : hLookup (h ++ h2) k = some e := by
  unfold hLookup at hl ⊢
  induction h with
  | nil => simp at hl
  | cons x t ih =>
    rw [List.cons_append]
    by_cases hxk : x.1 = k
    · rw [List.find?_cons_of_pos _ (by simp [hxk])] at hl ⊢
      exact hl
    · rw [List.find?_cons_of_neg _ (by simp [hxk])] at hl ⊢
      exact ih hl

/-- Keywords already present in a header keep their value and comment through
the inheritance fold. -/
theorem hLookup_inheritInto (p child : Header) (k : String) (e : HVal × String)
    (hl : hLookup child k = some e) :
    hLookup (inheritInto p child) k = some e := by
  unfold inheritInto
  generalize (p.map fun e => e.1) = ks
  induction ks generalizing child with
  | nil => exact hl
  | cons k' t ih =>
    rw [List.foldl_cons]
    apply ih
    unfold inheritStep
    split
    · rename_i hcond
      cases hpk : hLookup p k' with
      | none => exact hl
      | some vc =>
        obtain ⟨v, c⟩ := vc
        show hLookup (hSetCard child k' v c) k = some e
        unfold hSetCard
        rw [if_neg (by rw [hcond.1]; exact Bool.false_ne_true)]
        exact hLookup_append child [(k', v, c)] k e hl
    · exact hl

/-- C10: the header-inheritance pass leaves the primary header in place and
processes each later HDU independently; an HDU without a truthy `INHERIT`
card is returned entirely unchanged, and a keyword already present in an
HDU's header is never overwritten — its value and comment survive the pass. -/
theorem claim_C10_header_inherit (primary : Header) (children : List Header) :
    apply_header_inherit (primary :: children) =
      primary :: children.map (procChild primary) ∧
    (∀ child : Header, hGetBool child "INHERIT" = false →
      procChild primary child = child) ∧
    (∀ child : Header, ∀ k : String, ∀ v : HVal, ∀ cm : String,
      hLookup child k = some (v, cm) →
      hLookup (procChild primary child) k = some (v, cm)) := by
  refine ⟨rfl, ?_, ?_⟩
  · intro child hflag
    unfold procChild
    rw [if_neg (by rw [hflag]; exact Bool.false_ne_true)]
  · intro child k v cm hl
    unfold procChild
    by_cases hflag : hGetBool child "INHERIT"
    · rw [if_pos hflag]
      exact hLookup_inheritInto primary child k (v, cm) hl
    · rw [if_neg hflag]
      exact hl

/-- C10 witness: the inheritance claims at a concrete primary header and two
children, one with and one without the inherit flag. -/
theorem claim_C10_header_inherit_witness :
    apply_header_inherit
        [[("SIMPLE", HVal.b true, "conforms"), ("TELESCOP", HVal.s "TESS", "tel")],
         [("INHERIT", HVal.b true, ""), ("TELESCOP", HVal.s "OTHER", "kept")],
         [("XTENSION", HVal.s "IMAGE", "")]] =
      [("SIMPLE", HVal.b true, "conforms"), ("TELESCOP", HVal.s "TESS", "tel")] ::
        [[("INHERIT", HVal.b true, ""), ("TELESCOP", HVal.s "OTHER", "kept")],
         [("XTENSION", HVal.s "IMAGE", "")]].map
          (procChild [("SIMPLE", HVal.b true, "conforms"),
            ("TELESCOP", HVal.s "TESS", "tel")]) ∧
    procChild [("SIMPLE", HVal.b true, "conforms"), ("TELESCOP", HVal.s "TESS", "tel")]
        [("XTENSION", HVal.s "IMAGE", "")] =
      [("XTENSION", HVal.s "IMAGE", "")] ∧
    hLookup (procChild
        [("SIMPLE", HVal.b true, "conforms"), ("TELESCOP", HVal.s "TESS", "tel")]
        [("INHERIT", HVal.b true, ""), ("TELESCOP", HVal.s "OTHER", "kept")])
        "TELESCOP" = some (HVal.s "OTHER", "kept") := by
  have h := claim_C10_header_inherit
    [("SIMPLE", HVal.b true, "conforms"), ("TELESCOP", HVal.s "TESS", "tel")]
    [[("INHERIT", HVal.b true, ""), ("TELESCOP", HVal.s "OTHER", "kept")],
     [("XTENSION", HVal.s "IMAGE", "")]]
  exact ⟨h.1, h.2.1 [("XTENSION", HVal.s "IMAGE", "")] (by decide),
    h.2.2 [("INHERIT", HVal.b true, ""), ("TELESCOP", HVal.s "OTHER", "kept")]
      "TELESCOP" (HVal.s "OTHER") "kept" (by decide)⟩

end Astrocut
